import Mathlib

/-!
Shallow embedding of the HWLM (Hamster Wheel Literal Matcher) build stage,
`src/hwlm/hwlm_build.cpp`: engine selection (`isNoodleable`), the build
orchestrator (`hwlmBuild`), size introspection (`hwlmSize`) and the flood
heuristic (`hwlmFloodProneSuffixLen`).

Byte strings are `List Nat`; machine counters (`size_t`, `u64a`) are `Nat`.
The running `u64a total_chars` accumulator is modelled without a `% 2^64`
wrap: it is bounded by the total bytes of live `std::string` storage, which
cannot reach `2^64` in the C++ machine model, so the wrap is unreachable.
The two engine builders and their size functions live in other translation
units (`noodle_build.h`, `fdr/fdr_compile.h`) and are external collaborators
here, passed in as the `Builders` record.
-/

set_option autoImplicit false

namespace ue2

/-- A literal record, after `hwlm_literal.h`: id, byte string `s`, case
flag `nocase`, group bitmask `groups`, and the optional supplementary
mask/compare pair `msk`/`cmp`. -/
structure hwlmLiteral where
  id : Nat
  s : List Nat
  nocase : Bool
  groups : Nat
  msk : List Nat
  cmp : List Nat
deriving DecidableEq

/-- Build-configuration limits and feature flags, after the fields of
`Grey` that `hwlm_build.cpp` reads. -/
structure Grey where
  allowNoodle : Bool
  fdrAllowTeddy : Bool
  limitLiteralCount : Nat
  limitLiteralLength : Nat
  limitLiteralMatcherChars : Nat
  limitLiteralMatcherSize : Nat
deriving DecidableEq

/-- Hardware capability flags: the only query made here is
`target_info.has_avx2()`. -/
structure TargetInfo where
  has_avx2 : Bool
deriving DecidableEq

/-- Compile context, after `util/compile_context.h`: the `grey` box and the
target info, the two members `hwlm_build.cpp` reads. -/
structure CompileContext where
  grey : Grey
  target_info : TargetInfo
deriving DecidableEq

/-- Modelled from the spec: the engine-type tag for the single-literal
(noodle) engine. The header defining the numeric tag values
(`hwlm_internal.h`) is not among the sources; the spec fixes only that
there are exactly two recognized tag values, so two distinct naturals
stand for them. -/
def HWLM_ENGINE_NOOD : Nat := 1

/-- Modelled from the spec: the engine-type tag for the multi-literal (FDR)
engine; see `HWLM_ENGINE_NOOD`. -/
def HWLM_ENGINE_FDR : Nat := 2

/-- Modelled from the spec: the byte size of the fixed blob header
(`struct HWLM`, declared in the missing `hwlm_internal.h`). The header
carries only the one-byte engine-type tag, and only its cache-line roundup
(64) is observable in the build and size code. -/
def sizeof_HWLM : Nat := 1

/-- Modelled from the spec / `ue2common.h` (not among the sources):
round `n` up to the 64-byte cache-line boundary, as the allocation size
`ROUNDUP_CL(sizeof(HWLM)) + engSize` and the 64-byte alignment argument of
`make_bytecode_ptr` require. -/
def ROUNDUP_CL (n : Nat) : Nat := 64 * ((n + 63) / 64)

/-- The errors `hwlmBuild` can throw: `ResourceLimitError()` and
`CompileError("Internal error.")`. -/
inductive BuildError where
  | resourceLimit : BuildError
  | compileError : String → BuildError
deriving DecidableEq

/-- The packaged blob: the header's engine-type tag followed by the copied
engine payload bytes (`memcpy(HWLM_DATA(h.get()), eng.get(), engSize)`). -/
structure HWLM where
  type : Nat
  data : List Nat
deriving DecidableEq

/-- Which engine builder a build call invoked; used to record the calls a
run of `hwlmBuild` makes to its collaborators. -/
inductive EngineCall where
  | nood : EngineCall
  | fdr : EngineCall
deriving DecidableEq

/-- Modelled from the spec: the two engine builders and their size
functions are external collaborators compiled in other translation units.
A builder returns its opaque payload bytes, or `none` for the legitimate
empty ("no matcher needed") result; a non-`none` payload's build-time size
(`bytecode_ptr::size()`) is its byte count. Each size function maps a
payload region to the byte size that engine reports for it. -/
structure Builders where
  noodBuildTable : hwlmLiteral → Option (List Nat)
  fdrBuildTable : List hwlmLiteral → Bool → TargetInfo → Grey → Option (List Nat)
  noodSize : List Nat → Nat
  fdrSize : List Nat → Nat

/-- `isNoodleable` from `hwlm_build.cpp`: the single-literal specialist is
eligible when it is enabled (`grey.allowNoodle`), the batch holds exactly
one literal, and that literal's supplementary mask is empty. -/
def isNoodleable (lits : List hwlmLiteral) (cc : CompileContext) : Bool :=
  if !cc.grey.allowNoodle then false
  else if lits.length != 1 then false
  else
    match lits with
    | lit :: _ => lit.msk.isEmpty
    | [] => false

/-- The per-literal validation loop of `hwlmBuild`, carrying the running
`total_chars` accumulator: per literal, in order, the per-literal length
ceiling, the incremental aggregate character budget, and the reserved
all-ones id check. -/
def checkLits (g : Grey) : List hwlmLiteral → Nat → Except BuildError Unit
  | [], _ => Except.ok ()
  | lit :: rest, total_chars =>
    if lit.s.length > g.limitLiteralLength then Except.error BuildError.resourceLimit
    else
      let total2 := total_chars + lit.s.length
      if total2 > g.limitLiteralMatcherChars then Except.error BuildError.resourceLimit
      else if lit.id = 0xffffffff then
        Except.error (BuildError.compileError "Internal error.")
      else checkLits g rest total2

/-- The engine-type tag the selection branch of `hwlmBuild` writes:
`HWLM_ENGINE_NOOD` on the noodle branch, `HWLM_ENGINE_FDR` otherwise. -/
def chosenEngineType (lits : List hwlmLiteral) (cc : CompileContext) : Nat :=
  if isNoodleable lits cc then HWLM_ENGINE_NOOD else HWLM_ENGINE_FDR

/-- The builder invocation of `hwlmBuild`: `noodBuildTable(lits.front())`
on the noodle branch, `fdrBuildTable(lits, make_small, cc.target_info,
cc.grey)` otherwise. (`lits.front()` is only reached when `isNoodleable`
holds, which forces the batch to be a singleton.) -/
def chosenEngine (B : Builders) (lits : List hwlmLiteral) (make_small : Bool)
    (cc : CompileContext) : Option (List Nat) :=
  if isNoodleable lits cc then
    match lits with
    | lit :: _ => B.noodBuildTable lit
    | [] => none
  else
    B.fdrBuildTable lits make_small cc.target_info cc.grey

/-- `hwlmBuild` from `hwlm_build.cpp`. The first component is the call's
outcome: a thrown error, or `none` for the `nullptr` ("no matcher needed")
return, or the packaged blob. The second component records which engine
builders were invoked, in order, so that "no engine is invoked" claims are
statable. Checks run in source order: literal-count ceiling, then the
`checkLits` loop, then engine selection and building, then the `nullptr`
propagation, the compiled-size ceiling, and finally the allocation of
`ROUNDUP_CL(sizeof(HWLM)) + engSize` bytes holding the tag and the copied
payload. -/
def hwlmBuild (B : Builders) (lits : List hwlmLiteral) (make_small : Bool)
    (cc : CompileContext) : Except BuildError (Option HWLM) × List EngineCall :=
  if lits.length > cc.grey.limitLiteralCount then
    (Except.error BuildError.resourceLimit, [])
  else
    match checkLits cc.grey lits 0 with
    | Except.error e => (Except.error e, [])
    | Except.ok _ =>
      let engType := chosenEngineType lits cc
      let calls := [if isNoodleable lits cc then EngineCall.nood else EngineCall.fdr]
      match chosenEngine B lits make_small cc with
      | none => (Except.ok none, calls)
      | some eng =>
        let engSize := eng.length
        if engSize > cc.grey.limitLiteralMatcherSize then
          (Except.error BuildError.resourceLimit, calls)
        else
          (Except.ok (some { type := engType, data := eng }), calls)

/-- The total byte count a blob was allocated with at build time:
`ROUNDUP_CL(sizeof(HWLM)) + engSize`, where the payload copied into
`data` has exactly `engSize` bytes. -/
def hwlmAllocatedSize (h : HWLM) : Nat :=
  ROUNDUP_CL sizeof_HWLM + h.data.length

/-- `hwlmSize` from `hwlm_build.cpp`: switch on the header tag, delegate to
the matching engine's size function on the payload region (an unmatched
tag leaves `engSize = 0`), return `0` if the reported size is zero, else
the reported size plus the cache-line-rounded header. A total function:
no error is ever raised. -/
def hwlmSize (B : Builders) (h : HWLM) : Nat :=
  let engSize :=
    if h.type = HWLM_ENGINE_NOOD then B.noodSize h.data
    else if h.type = HWLM_ENGINE_FDR then B.fdrSize h.data
    else 0
  if engSize = 0 then 0 else engSize + ROUNDUP_CL sizeof_HWLM

/-- The `NO_LIMIT` sentinel of `hwlmFloodProneSuffixLen`: `~(size_t)0`,
the all-ones 64-bit value. -/
def floodNoLimit : Nat := 2 ^ 64 - 1

/-- `hwlmFloodProneSuffixLen` from `hwlm_build.cpp`: the noodle case
returns `NO_LIMIT`; inside the teddy-enabled block the two guarded cases
return 3 and otherwise fall through to the final conservative `return 3`. -/
def hwlmFloodProneSuffixLen (numLiterals : Nat) (cc : CompileContext) : Nat :=
  if cc.grey.allowNoodle = true ∧ numLiterals ≤ 1 then floodNoLimit
  else if cc.grey.fdrAllowTeddy then
    if numLiterals ≤ 48 then 3
    else if cc.target_info.has_avx2 = true ∧ numLiterals ≤ 96 then 3
    else 3
  else 3

/-- Sum of the pattern lengths of a batch, the mathematical value the
running `total_chars` accumulator reaches. -/
def sumLens (lits : List hwlmLiteral) : Nat :=
  (lits.map (fun l => l.s.length)).sum

end ue2

namespace ue2

theorem sumLens_nil : sumLens [] = 0 := rfl

theorem sumLens_cons (l : hwlmLiteral) (rest : List hwlmLiteral) :
    sumLens (l :: rest) = l.s.length + sumLens rest := by
  simp [sumLens]

theorem isNoodleable_iff (lits : List hwlmLiteral) (cc : CompileContext) :
    isNoodleable lits cc = true ↔
      cc.grey.allowNoodle = true ∧ ∃ lit, lits = [lit] ∧ lit.msk = [] := by
  unfold isNoodleable
  cases hn : cc.grey.allowNoodle with
  | false => simp [hn]
  | true =>
    simp only [hn, Bool.not_true, Bool.false_eq_true, if_false, true_and]
    cases lits with
    | nil => simp
    | cons a t =>
      cases t with
      | nil => simp [List.isEmpty_iff]
      | cons b t2 => simp

theorem checkLits_ok (g : Grey) (lits : List hwlmLiteral) (total0 : Nat)
    (hlen : ∀ l ∈ lits, l.s.length ≤ g.limitLiteralLength)
    (hsum : total0 + sumLens lits ≤ g.limitLiteralMatcherChars)
    (hid : ∀ l ∈ lits, l.id ≠ 0xffffffff) :
    checkLits g lits total0 = Except.ok () := by
  induction lits generalizing total0 with
  | nil => rfl
  | cons l rest ih =>
    rw [sumLens_cons] at hsum
    have h1 : ¬ l.s.length > g.limitLiteralLength :=
      Nat.not_lt.mpr (hlen l (List.mem_cons_self l rest))
    have h2 : ¬ total0 + l.s.length > g.limitLiteralMatcherChars := by omega
    have h3 : ¬ l.id = 0xffffffff := hid l (List.mem_cons_self l rest)
    unfold checkLits
    rw [if_neg h1, if_neg h2, if_neg h3]
    exact ih (total0 + l.s.length)
      (fun x hx => hlen x (List.mem_cons_of_mem l hx))
      (by omega)
      (fun x hx => hid x (List.mem_cons_of_mem l hx))

theorem checkLits_limit_error (g : Grey) (lits : List hwlmLiteral) (total0 : Nat)
    (h0 : total0 ≤ g.limitLiteralMatcherChars)
    (hid : ∀ l ∈ lits, l.id ≠ 0xffffffff)
    (hviol : (∃ l ∈ lits, g.limitLiteralLength < l.s.length) ∨
             g.limitLiteralMatcherChars < total0 + sumLens lits) :
    checkLits g lits total0 = Except.error BuildError.resourceLimit := by
  induction lits generalizing total0 with
  | nil =>
    exfalso
    rcases hviol with ⟨l, hl, _⟩ | hs
    · exact absurd hl (List.not_mem_nil l)
    · rw [sumLens_nil] at hs; omega
  | cons l rest ih =>
    unfold checkLits
    by_cases h1 : l.s.length > g.limitLiteralLength
    · rw [if_pos h1]
    · rw [if_neg h1]
      by_cases h2 : total0 + l.s.length > g.limitLiteralMatcherChars
      · rw [if_pos h2]
      · rw [if_neg h2, if_neg (hid l (List.mem_cons_self l rest))]
        refine ih (total0 + l.s.length) (by omega)
          (fun x hx => hid x (List.mem_cons_of_mem l hx)) ?_
        rcases hviol with ⟨x, hx, hxl⟩ | hs
        · rcases List.mem_cons.mp hx with rfl | hx2
          · omega
          · exact Or.inl ⟨x, hx2, hxl⟩
        · rw [sumLens_cons] at hs; omega

theorem checkLits_sentinel_error (g : Grey) (lits : List hwlmLiteral) (total0 : Nat)
    (hlen : ∀ l ∈ lits, l.s.length ≤ g.limitLiteralLength)
    (hsum : total0 + sumLens lits ≤ g.limitLiteralMatcherChars)
    (hid : ∃ l ∈ lits, l.id = 0xffffffff) :
    checkLits g lits total0 = Except.error (BuildError.compileError "Internal error.") := by
  induction lits generalizing total0 with
  | nil =>
    exfalso
    rcases hid with ⟨l, hl, _⟩
    exact absurd hl (List.not_mem_nil l)
  | cons l rest ih =>
    rw [sumLens_cons] at hsum
    have h1 : ¬ l.s.length > g.limitLiteralLength :=
      Nat.not_lt.mpr (hlen l (List.mem_cons_self l rest))
    have h2 : ¬ total0 + l.s.length > g.limitLiteralMatcherChars := by omega
    unfold checkLits
    rw [if_neg h1, if_neg h2]
    by_cases h3 : l.id = 0xffffffff
    · rw [if_pos h3]
    · rw [if_neg h3]
      refine ih (total0 + l.s.length)
        (fun x hx => hlen x (List.mem_cons_of_mem l hx)) (by omega) ?_
      rcases hid with ⟨x, hx, hxid⟩
      rcases List.mem_cons.mp hx with rfl | hx2
      · exact absurd hxid h3
      · exact ⟨x, hx2, hxid⟩

theorem hwlmBuild_calls (B : Builders) (lits : List hwlmLiteral) (make_small : Bool)
    (cc : CompileContext)
    (hcnt : lits.length ≤ cc.grey.limitLiteralCount)
    (hchk : checkLits cc.grey lits 0 = Except.ok ()) :
    (hwlmBuild B lits make_small cc).2 =
      [if isNoodleable lits cc then EngineCall.nood else EngineCall.fdr] := by
  unfold hwlmBuild
  rw [if_neg (Nat.not_lt.mpr hcnt), hchk]
  cases chosenEngine B lits make_small cc with
  | none => rfl
  | some eng =>
    by_cases hs : eng.length > cc.grey.limitLiteralMatcherSize
    · simp [hs]
    · simp [hs]

theorem hwlmBuild_ok_type (B : Builders) (lits : List hwlmLiteral) (make_small : Bool)
    (cc : CompileContext) (h : HWLM) (tr : List EngineCall)
    (hbuild : hwlmBuild B lits make_small cc = (Except.ok (some h), tr)) :
    h.type = HWLM_ENGINE_NOOD ∨ h.type = HWLM_ENGINE_FDR := by
  unfold hwlmBuild at hbuild
  by_cases hc : lits.length > cc.grey.limitLiteralCount
  · rw [if_pos hc] at hbuild
    exact absurd (congrArg Prod.fst hbuild) (by simp)
  · rw [if_neg hc] at hbuild
    cases hchk : checkLits cc.grey lits 0 with
    | error e =>
      rw [hchk] at hbuild
      exact absurd (congrArg Prod.fst hbuild) (by simp)
    | ok u =>
      rw [hchk] at hbuild
      cases hce : chosenEngine B lits make_small cc with
      | none =>
        rw [hce] at hbuild
        simp at hbuild
      | some eng =>
        rw [hce] at hbuild
        by_cases hs : eng.length > cc.grey.limitLiteralMatcherSize
        · simp [hs] at hbuild
        · simp [hs] at hbuild
          by_cases hn : isNoodleable lits cc
          · left
            rw [← hbuild.1]
            simp [chosenEngineType, hn]
          · right
            rw [← hbuild.1]
            simp [chosenEngineType, hn]

/-- A plain one-byte literal `"a"` with id 0, no supplementary mask. -/
def litA : hwlmLiteral := ⟨0, [97], false, 1, [], []⟩

/-- A singleton batch holding `litA`. -/
def litsOne : List hwlmLiteral := [litA]

/-- A generous configuration: noodle and teddy enabled, all limits large,
no wide-vector hardware. -/
def ccGen : CompileContext := ⟨⟨true, true, 1000, 1000, 100000, 100000⟩, ⟨false⟩⟩

/-- Builders whose noodle builder returns the one-byte payload `[7]` and
whose size functions report a payload's byte count. -/
def Bnood : Builders :=
  ⟨fun _ => some [7], fun _ _ _ _ => some [1, 2, 3], fun d => d.length, fun d => d.length⟩

/-- Builders whose noodle builder succeeds with a zero-size payload, with
size functions faithfully reporting its byte count (zero). -/
def Bzero : Builders :=
  ⟨fun _ => some [], fun _ _ _ _ => none, fun _ => 0, fun _ => 0⟩

/-- Builders that always produce the empty ("no matcher needed") result. -/
def Bnone : Builders :=
  ⟨fun _ => none, fun _ _ _ _ => none, fun _ => 0, fun _ => 0⟩

/-- Claim C1: with the pre-engine validation passed, the build call invokes
exactly one engine builder, and it is the single-literal (noodle) builder
precisely when the specialist is enabled, the batch is a singleton, and its
literal carries no supplementary mask; in every other case it is the
multi-literal (FDR) builder. -/
theorem hwlmBuild_engine_selection (B : Builders) (lits : List hwlmLiteral)
    (make_small : Bool) (cc : CompileContext)
    (hcnt : lits.length ≤ cc.grey.limitLiteralCount)
    (hchk : checkLits cc.grey lits 0 = Except.ok ()) :
    ((hwlmBuild B lits make_small cc).2 = [EngineCall.nood] ∨
     (hwlmBuild B lits make_small cc).2 = [EngineCall.fdr]) ∧
    ((hwlmBuild B lits make_small cc).2 = [EngineCall.nood] ↔
      cc.grey.allowNoodle = true ∧ ∃ lit, lits = [lit] ∧ lit.msk = []) := by
  have hcalls := hwlmBuild_calls B lits make_small cc hcnt hchk
  by_cases hn : isNoodleable lits cc
  · rw [hcalls, if_pos hn]
    exact ⟨Or.inl rfl, by simpa using (isNoodleable_iff lits cc).mp hn⟩
  · rw [hcalls, if_neg hn]
    refine ⟨Or.inr rfl, ?_⟩
    constructor
    · intro hcontra
      simp at hcontra
    · intro hcond
      exact absurd ((isNoodleable_iff lits cc).mpr hcond) hn

/-- Witness for C1: on the singleton unconstrained batch with the
specialist enabled, the noodle builder is the one invoked. -/
theorem hwlmBuild_engine_selection_witness :
    (hwlmBuild Bnood litsOne false ccGen).2 = [EngineCall.nood] :=
  ((hwlmBuild_engine_selection Bnood litsOne false ccGen (by decide) rfl).2).mpr
    ⟨rfl, litA, rfl, rfl⟩

/-- Claim C5: the flood heuristic collapses to a two-way choice: the
all-ones "no limit" sentinel exactly when the single-literal specialist is
enabled and the count is at most one, and 3 in every other case (teddy or
not, wide-vector hardware or not). -/
theorem hwlmFloodProneSuffixLen_spec (numLiterals : Nat) (cc : CompileContext) :
    hwlmFloodProneSuffixLen numLiterals cc =
      if cc.grey.allowNoodle = true ∧ numLiterals ≤ 1 then floodNoLimit else 3 := by
  unfold hwlmFloodProneSuffixLen
  by_cases h1 : cc.grey.allowNoodle = true ∧ numLiterals ≤ 1
  · rw [if_pos h1, if_pos h1]
  · rw [if_neg h1, if_neg h1]
    by_cases h2 : cc.grey.fdrAllowTeddy
    · rw [if_pos h2]
      by_cases h3 : numLiterals ≤ 48
      · rw [if_pos h3]
      · rw [if_neg h3]
        by_cases h4 : cc.target_info.has_avx2 = true ∧ numLiterals ≤ 96
        · rw [if_pos h4]
        · rw [if_neg h4]
    · rw [if_neg h2]

/-- Claim C10: the Size Inspector returns either exactly zero or a value
strictly above the cache-line-rounded header size; no positive value at or
below the aligned header size ever comes back. -/
theorem hwlmSize_zero_or_above_header (B : Builders) (h : HWLM) :
    hwlmSize B h = 0 ∨ ROUNDUP_CL sizeof_HWLM < hwlmSize B h := by
  unfold hwlmSize
  by_cases hz :
      (if h.type = HWLM_ENGINE_NOOD then B.noodSize h.data
       else if h.type = HWLM_ENGINE_FDR then B.fdrSize h.data
       else 0) = 0
  · rw [if_pos hz]
    exact Or.inl rfl
  · rw [if_neg hz]
    right
    have : ROUNDUP_CL sizeof_HWLM = 64 := rfl
    omega

/-- Claim C3: case analysis of the Size Inspector. An unrecognized tag
yields zero; a recognized tag whose engine reports a zero payload size
yields zero; otherwise the result is the engine-reported payload size plus
the cache-line-rounded header size. (`hwlmSize` is a total function of the
blob: no error is ever raised.) -/
theorem hwlmSize_cases (B : Builders) (h : HWLM) :
    (h.type ≠ HWLM_ENGINE_NOOD → h.type ≠ HWLM_ENGINE_FDR → hwlmSize B h = 0) ∧
    (h.type = HWLM_ENGINE_NOOD → B.noodSize h.data = 0 → hwlmSize B h = 0) ∧
    (h.type = HWLM_ENGINE_FDR → B.fdrSize h.data = 0 → hwlmSize B h = 0) ∧
    (h.type = HWLM_ENGINE_NOOD → B.noodSize h.data ≠ 0 →
      hwlmSize B h = B.noodSize h.data + ROUNDUP_CL sizeof_HWLM) ∧
    (h.type = HWLM_ENGINE_FDR → B.fdrSize h.data ≠ 0 →
      hwlmSize B h = B.fdrSize h.data + ROUNDUP_CL sizeof_HWLM) := by
  refine ⟨?_, ?_, ?_, ?_, ?_⟩
  · intro h1 h2
    simp [hwlmSize, h1, h2]
  · intro h1 h2
    simp [hwlmSize, h1, h2]
  · intro h1 h2
    simp [hwlmSize, HWLM_ENGINE_NOOD, HWLM_ENGINE_FDR, h1, h2]
  · intro h1 h2
    simp [hwlmSize, h1, h2]
  · intro h1 h2
    simp [hwlmSize, HWLM_ENGINE_NOOD, HWLM_ENGINE_FDR, h1, h2]

/-- Witness for C3: on a blob with the unrecognized tag 99, the Size
Inspector returns zero. -/
theorem hwlmSize_cases_witness : hwlmSize Bnood ⟨99, []⟩ = 0 :=
  (hwlmSize_cases Bnood ⟨99, []⟩).1 (by decide) (by decide)

/-- A tight configuration whose per-literal length ceiling is 1. -/
def ccTight : CompileContext := ⟨⟨true, true, 10, 1, 100, 100⟩, ⟨false⟩⟩

/-- A batch whose first literal uses the reserved all-ones id and whose
second literal is two bytes long. -/
def litsSentinelThenLong : List hwlmLiteral :=
  [⟨0xffffffff, [97], false, 1, [], []⟩, ⟨0, [97, 97], false, 1, [], []⟩]

/-- Counterexample to C4 as stated: in `litsSentinelThenLong` under
`ccTight`, the second literal's pattern length (2) exceeds the per-literal
ceiling (1), yet the build call fails with the internal-invariant error —
the sentinel-id check on the first literal fires before the length check on
the second — not with the resource-limit error the claim requires. -/
theorem hwlmBuild_limits_cex :
    litsSentinelThenLong.any
      (fun l => ccTight.grey.limitLiteralLength < l.s.length) = true ∧
    hwlmBuild Bnone litsSentinelThenLong false ccTight =
      (Except.error (BuildError.compileError "Internal error."), []) :=
  ⟨rfl, rfl⟩

/-- Claim C4, amended: the build call fails with the resource-limit error
and invokes no engine builder whenever the literal count exceeds the
configured ceiling; and, for a batch in which no literal carries the
reserved all-ones id (whose check would otherwise preempt later length
checks), also whenever some pattern length exceeds the per-literal ceiling
or the summed pattern lengths exceed the aggregate character budget. -/
theorem hwlmBuild_limits (B : Builders) (lits : List hwlmLiteral)
    (make_small : Bool) (cc : CompileContext) :
    (cc.grey.limitLiteralCount < lits.length →
      hwlmBuild B lits make_small cc = (Except.error BuildError.resourceLimit, [])) ∧
    ((∀ l ∈ lits, l.id ≠ 0xffffffff) →
      ((∃ l ∈ lits, cc.grey.limitLiteralLength < l.s.length) ∨
        cc.grey.limitLiteralMatcherChars < sumLens lits) →
      hwlmBuild B lits make_small cc = (Except.error BuildError.resourceLimit, [])) := by
  constructor
  · intro hc
    unfold hwlmBuild
    rw [if_pos hc]
  · intro hid hviol
    by_cases hc : lits.length > cc.grey.limitLiteralCount
    · unfold hwlmBuild
      rw [if_pos hc]
    · unfold hwlmBuild
      rw [if_neg hc,
        checkLits_limit_error cc.grey lits 0 (Nat.zero_le _) hid (by simpa using hviol)]

/-- Witness for C4 (amended): a two-literal batch against a count ceiling
of 1 fails with the resource-limit error and no builder call. -/
theorem hwlmBuild_limits_witness :
    hwlmBuild Bnone litsSentinelThenLong false ⟨⟨true, true, 1, 10, 100, 100⟩, ⟨false⟩⟩ =
      (Except.error BuildError.resourceLimit, []) :=
  (hwlmBuild_limits Bnone litsSentinelThenLong false
    ⟨⟨true, true, 1, 10, 100, 100⟩, ⟨false⟩⟩).1 (by decide)

/-- A configuration whose literal-count ceiling is zero. -/
def ccCountZero : CompileContext := ⟨⟨true, true, 0, 10, 100, 100⟩, ⟨false⟩⟩

/-- A singleton batch whose literal uses the reserved all-ones id. -/
def litsSentinelOnly : List hwlmLiteral := [⟨0xffffffff, [97], false, 1, [], []⟩]

/-- Counterexample to C6 as stated: a batch containing a reserved
sentinel-id literal does not fail with the internal-invariant error
"regardless of the batch's other properties" — when the literal count also
exceeds the configured ceiling, the count check fires first and the call
fails with the resource-limit error instead. -/
theorem hwlmBuild_sentinel_cex :
    litsSentinelOnly.any (fun l => l.id = 0xffffffff) = true ∧
    hwlmBuild Bnone litsSentinelOnly false ccCountZero =
      (Except.error BuildError.resourceLimit, []) :=
  ⟨rfl, rfl⟩

/-- Claim C6, amended: for every batch within the count ceiling, the
per-literal length ceiling and the aggregate character budget, containing
some literal with the reserved all-ones id, the build call fails with the
internal-invariant-violation error — which is distinct from the
resource-limit error — and invokes no engine builder. -/
theorem hwlmBuild_sentinel (B : Builders) (lits : List hwlmLiteral)
    (make_small : Bool) (cc : CompileContext)
    (hcnt : lits.length ≤ cc.grey.limitLiteralCount)
    (hlen : ∀ l ∈ lits, l.s.length ≤ cc.grey.limitLiteralLength)
    (hsum : sumLens lits ≤ cc.grey.limitLiteralMatcherChars)
    (hid : ∃ l ∈ lits, l.id = 0xffffffff) :
    hwlmBuild B lits make_small cc =
      (Except.error (BuildError.compileError "Internal error."), []) ∧
    BuildError.compileError "Internal error." ≠ BuildError.resourceLimit := by
  refine ⟨?_, by decide⟩
  unfold hwlmBuild
  rw [if_neg (Nat.not_lt.mpr hcnt),
    checkLits_sentinel_error cc.grey lits 0 hlen (by simpa using hsum) hid]

/-- Witness for C6 (amended): a sentinel-id singleton batch under generous
limits fails with the internal error. -/
theorem hwlmBuild_sentinel_witness :
    hwlmBuild Bnone litsSentinelOnly false ccGen =
      (Except.error (BuildError.compileError "Internal error."), []) ∧
    BuildError.compileError "Internal error." ≠ BuildError.resourceLimit :=
  hwlmBuild_sentinel Bnone litsSentinelOnly false ccGen (by decide) (by decide)
    (by decide) (by decide)

/-- Claim C7: when validation has passed and the invoked engine builder
returns a payload whose size exceeds the compiled-size ceiling (such a
payload is necessarily non-empty), the build call fails with the
resource-limit error; the error outcome carries no blob, so no partial
blob is returned. -/
theorem hwlmBuild_size_limit (B : Builders) (lits : List hwlmLiteral)
    (make_small : Bool) (cc : CompileContext) (payload : List Nat)
    (hcnt : lits.length ≤ cc.grey.limitLiteralCount)
    (hchk : checkLits cc.grey lits 0 = Except.ok ())
    (heng : chosenEngine B lits make_small cc = some payload)
    (hsz : cc.grey.limitLiteralMatcherSize < payload.length) :
    (hwlmBuild B lits make_small cc).1 = Except.error BuildError.resourceLimit ∧
    0 < payload.length := by
  refine ⟨?_, by omega⟩
  unfold hwlmBuild
  rw [if_neg (Nat.not_lt.mpr hcnt), hchk, heng]
  simp [hsz]

/-- Builders whose noodle builder returns a five-byte payload. -/
def Bbig : Builders :=
  ⟨fun _ => some [1, 2, 3, 4, 5], fun _ _ _ _ => none, fun d => d.length, fun d => d.length⟩

/-- A configuration whose compiled-size ceiling is 4. -/
def ccSmallSize : CompileContext := ⟨⟨true, true, 10, 10, 100, 4⟩, ⟨false⟩⟩

/-- Witness for C7: a five-byte payload against a compiled-size ceiling of
4 makes the build call fail with the resource-limit error. -/
theorem hwlmBuild_size_limit_witness :
    (hwlmBuild Bbig litsOne false ccSmallSize).1 =
      Except.error BuildError.resourceLimit ∧
    0 < ([1, 2, 3, 4, 5] : List Nat).length :=
  hwlmBuild_size_limit Bbig litsOne false ccSmallSize [1, 2, 3, 4, 5] (by decide) rfl
    rfl (by decide)

/-- Counterexample to C9 as stated: when the noodle builder succeeds with a
zero-size payload on the singleton batch under generous limits, the build
call does not return the null blob — it returns a non-null blob with an
empty payload region. -/
theorem hwlmBuild_empty_cex :
    chosenEngine Bzero litsOne false ccGen = some [] ∧
    (hwlmBuild Bzero litsOne false ccGen).1 ≠ Except.ok none ∧
    (hwlmBuild Bzero litsOne false ccGen).1 =
      Except.ok (some ⟨HWLM_ENGINE_NOOD, []⟩) := by
  refine ⟨rfl, ?_, rfl⟩
  intro hc
  rw [show (hwlmBuild Bzero litsOne false ccGen).1 =
      Except.ok (some ⟨HWLM_ENGINE_NOOD, []⟩) from rfl] at hc
  simp at hc

/-- Claim C9, amended: when validation has passed and the invoked engine
builder produces the empty result, the build call returns the null blob
and raises no error; but when the builder succeeds with a zero-size
payload, the call instead returns a non-null blob with an empty payload
region (still raising no error), rather than the null blob. -/
theorem hwlmBuild_empty_vs_zero (B : Builders) (lits : List hwlmLiteral)
    (make_small : Bool) (cc : CompileContext)
    (hcnt : lits.length ≤ cc.grey.limitLiteralCount)
    (hchk : checkLits cc.grey lits 0 = Except.ok ()) :
    (chosenEngine B lits make_small cc = none →
      (hwlmBuild B lits make_small cc).1 = Except.ok none) ∧
    (chosenEngine B lits make_small cc = some [] →
      (hwlmBuild B lits make_small cc).1 =
        Except.ok (some ⟨chosenEngineType lits cc, []⟩)) := by
  constructor
  · intro heng
    unfold hwlmBuild
    rw [if_neg (Nat.not_lt.mpr hcnt), hchk, heng]
  · intro heng
    unfold hwlmBuild
    rw [if_neg (Nat.not_lt.mpr hcnt), hchk, heng]
    simp

/-- Witness for C9 (amended): builders that produce the empty result make
the build call return the null blob with no error. -/
theorem hwlmBuild_empty_vs_zero_witness :
    (hwlmBuild Bnone litsOne false ccGen).1 = Except.ok none :=
  (hwlmBuild_empty_vs_zero Bnone litsOne false ccGen (by decide) rfl).1 rfl

/-- Counterexample to C2 as stated: when the noodle builder succeeds with a
zero-size payload, the build call still returns a blob, allocated with the
cache-line-rounded header alone (64 bytes); on that blob the Size
Inspector returns 0, not 64, even though the engine size function reports
exactly the build-time payload size (zero). -/
theorem hwlmSize_roundtrip_cex :
    (hwlmBuild Bzero litsOne false ccGen).1 =
      Except.ok (some ⟨HWLM_ENGINE_NOOD, []⟩) ∧
    Bzero.noodSize [] = 0 ∧
    hwlmAllocatedSize ⟨HWLM_ENGINE_NOOD, []⟩ = 64 ∧
    hwlmSize Bzero ⟨HWLM_ENGINE_NOOD, []⟩ = 0 ∧
    hwlmSize Bzero ⟨HWLM_ENGINE_NOOD, []⟩ ≠ hwlmAllocatedSize ⟨HWLM_ENGINE_NOOD, []⟩ :=
  ⟨rfl, rfl, rfl, rfl, by decide⟩

/-- Claim C2, amended: for every blob returned by the build call whose
payload is of nonzero size, if the tag-matched engine size function reports
the same payload size recorded at build time (the byte count of the copied
payload region), then the Size Inspector returns exactly the total size the
blob was allocated with — the cache-line-rounded header plus the payload
size. -/
theorem hwlmSize_roundtrip (B : Builders) (lits : List hwlmLiteral)
    (make_small : Bool) (cc : CompileContext) (h : HWLM) (tr : List EngineCall)
    (hbuild : hwlmBuild B lits make_small cc = (Except.ok (some h), tr))
    (hnz : h.data.length ≠ 0)
    (hnood : h.type = HWLM_ENGINE_NOOD → B.noodSize h.data = h.data.length)
    (hfdr : h.type = HWLM_ENGINE_FDR → B.fdrSize h.data = h.data.length) :
    hwlmSize B h = hwlmAllocatedSize h := by
  rcases hwlmBuild_ok_type B lits make_small cc h tr hbuild with ht | ht
  · have hs := hnood ht
    unfold hwlmSize hwlmAllocatedSize
    rw [if_pos ht, hs, if_neg hnz, Nat.add_comm]
  · have hs := hfdr ht
    have hne : ¬ h.type = HWLM_ENGINE_NOOD := by rw [ht]; decide
    unfold hwlmSize hwlmAllocatedSize
    rw [if_neg hne, if_pos ht, hs, if_neg hnz, Nat.add_comm]

/-- Witness for C2 (amended): the blob built from the singleton batch with
the one-byte noodle payload `[7]` round-trips: the Size Inspector returns
its allocated size. -/
theorem hwlmSize_roundtrip_witness :
    hwlmSize Bnood ⟨HWLM_ENGINE_NOOD, [7]⟩ =
      hwlmAllocatedSize ⟨HWLM_ENGINE_NOOD, [7]⟩ :=
  hwlmSize_roundtrip Bnood litsOne false ccGen ⟨HWLM_ENGINE_NOOD, [7]⟩
    [EngineCall.nood] rfl (by decide) (fun _ => rfl) (fun _ => rfl)

/-- Counterexample to C8 as stated: the singleton batch `litsOne` is
non-empty and within every configured limit of `ccGen` (count, length,
aggregate characters — and the zero-size payload is within the compiled
size ceiling), yet with builders whose noodle builder succeeds with a
zero-size payload the build call returns a blob on which the Size
Inspector reports 0, not a strictly positive size. -/
theorem hwlmBuild_success_cex :
    litsOne ≠ [] ∧
    litsOne.length ≤ ccGen.grey.limitLiteralCount ∧
    (∀ l ∈ litsOne, l.s.length ≤ ccGen.grey.limitLiteralLength) ∧
    sumLens litsOne ≤ ccGen.grey.limitLiteralMatcherChars ∧
    (hwlmBuild Bzero litsOne false ccGen).1 =
      Except.ok (some ⟨HWLM_ENGINE_NOOD, []⟩) ∧
    ¬ 0 < hwlmSize Bzero ⟨HWLM_ENGINE_NOOD, []⟩ :=
  ⟨by decide, by decide, by decide, by decide, rfl, by decide⟩

/-- Claim C8, amended: for every non-empty batch within the count,
per-literal length and aggregate character limits, carrying no reserved
sentinel id, for which the selected engine builder returns a payload of
nonzero size within the compiled-size ceiling and whose engine size
function reports that same size, the build call returns a non-null blob on
which the Size Inspector reports a strictly positive size. -/
theorem hwlmBuild_success (B : Builders) (lits : List hwlmLiteral)
    (make_small : Bool) (cc : CompileContext) (payload : List Nat)
    (_hne : lits ≠ [])
    (hcnt : lits.length ≤ cc.grey.limitLiteralCount)
    (hlen : ∀ l ∈ lits, l.s.length ≤ cc.grey.limitLiteralLength)
    (hsum : sumLens lits ≤ cc.grey.limitLiteralMatcherChars)
    (hid : ∀ l ∈ lits, l.id ≠ 0xffffffff)
    (heng : chosenEngine B lits make_small cc = some payload)
    (hpos : 0 < payload.length)
    (hszlim : payload.length ≤ cc.grey.limitLiteralMatcherSize)
    (hnood : chosenEngineType lits cc = HWLM_ENGINE_NOOD →
      B.noodSize payload = payload.length)
    (hfdr : chosenEngineType lits cc = HWLM_ENGINE_FDR →
      B.fdrSize payload = payload.length) :
    (hwlmBuild B lits make_small cc).1 =
      Except.ok (some ⟨chosenEngineType lits cc, payload⟩) ∧
    0 < hwlmSize B ⟨chosenEngineType lits cc, payload⟩ := by
  have hchk : checkLits cc.grey lits 0 = Except.ok () :=
    checkLits_ok cc.grey lits 0 hlen (by simpa using hsum) hid
  have hcl : ROUNDUP_CL sizeof_HWLM = 64 := rfl
  constructor
  · unfold hwlmBuild
    rw [if_neg (Nat.not_lt.mpr hcnt), hchk, heng]
    simp [Nat.not_lt.mpr hszlim]
  · by_cases hn : isNoodleable lits cc
    · have ht : chosenEngineType lits cc = HWLM_ENGINE_NOOD := by
        unfold chosenEngineType
        rw [if_pos hn]
      have hs := hnood ht
      rw [ht]
      unfold hwlmSize
      rw [if_pos rfl, hs, if_neg (by omega)]
      omega
    · have ht : chosenEngineType lits cc = HWLM_ENGINE_FDR := by
        unfold chosenEngineType
        rw [if_neg hn]
      have hs := hfdr ht
      have hzero : ¬ payload.length = 0 := by omega
      rw [ht]
      have hEq : hwlmSize B ⟨HWLM_ENGINE_FDR, payload⟩
          = payload.length + ROUNDUP_CL sizeof_HWLM := by
        simp [hwlmSize, HWLM_ENGINE_NOOD, HWLM_ENGINE_FDR, hs, hzero]
      rw [hEq, hcl]
      omega

/-- Witness for C8 (amended): the singleton batch under generous limits
with the one-byte noodle payload builds a non-null blob of positive
reported size. -/
theorem hwlmBuild_success_witness :
    (hwlmBuild Bnood litsOne false ccGen).1 =
      Except.ok (some ⟨chosenEngineType litsOne ccGen, [7]⟩) ∧
    0 < hwlmSize Bnood ⟨chosenEngineType litsOne ccGen, [7]⟩ :=
  hwlmBuild_success Bnood litsOne false ccGen [7] (by decide) (by decide) (by decide)
    (by decide) (by decide) rfl (by decide) (by decide) (fun _ => rfl) (fun _ => rfl)

end ue2
